import Mathlib

/-!
Verification development for the PPO trainer of
`applications/DeepSpeed-Chat/dschat/rlhf/ppo_trainer.py` (class
`DeepSpeedPPOTrainer`).

Shallow embedding conventions:
- a tensor row (one batch example) becomes a `List ℚ` (for the actor loss,
  which applies the real exponential, a `List ℝ`);
- a batched 2-d tensor becomes a `List (List _)`;
- integer masks become `List ℕ` with entries 0/1;
- Python code that can raise (assertion failure, NaN from a division by a
  zero mask sum) returns `Option _`, `none` being the failure;
- out-of-range tensor indexing, which would raise in torch, is modelled with
  `List.getD` and theorems carry the shape hypotheses under which the source
  never indexes out of range.
-/

namespace PPO

/-- `torch.clamp(x, lo, hi)` on rationals: first the lower bound, then the
upper bound, exactly as torch evaluates it. -/
def clamp (x lo hi : ℚ) : ℚ := min (max x lo) hi

/-- The loop body of `get_advantages_and_returns`: one iteration of
`for t in reversed(range(start, length))`, where `k` counts iterations (so
`t = length - 1 - k`), the first accumulator component is `lastgaelam` and the
second collects the advantages.  The Python code appends to
`advantages_reversed` and reverses at the end; consing onto the accumulator
produces that reversed list directly. -/
def gaeStep (gamma lam : ℚ) (values rewards : List ℚ)
    (acc : ℚ × List ℚ) (k : ℕ) : ℚ × List ℚ :=
  let t := rewards.length - 1 - k
  let nextvalues : ℚ := if t < rewards.length - 1 then values.getD (t + 1) 0 else 0
  let delta := rewards.getD t 0 + gamma * nextvalues - values.getD t 0
  let lastgaelam := delta + gamma * lam * acc.1
  (lastgaelam, lastgaelam :: acc.2)

/-- `DeepSpeedPPOTrainer.get_advantages_and_returns(values, rewards, start)`
for one batch row.  `gamma` and `lam` are the trainer fields `self.gamma` and
`self.lam` (defaults `1.0` and `0.95`).  Returns
`(advantages, returns) = (stack(advantages_reversed[::-1]),
advantages + values[:, start:])`. -/
def get_advantages_and_returns (gamma lam : ℚ) (values rewards : List ℚ)
    (start : ℕ) : List ℚ × List ℚ :=
  let advantages :=
    ((List.range (rewards.length - start)).foldl
      (gaeStep gamma lam values rewards) ((0 : ℚ), ([] : List ℚ))).2
  let returns := advantages.zipWith (fun a v => a + v) (values.drop start)
  (advantages, returns)

/-- Forward-recursive characterization of the backward GAE loop: the list of
`lastgaelam` values for positions `start, start+1, ..., rewards.length - 1`
in forward order.  Equal to the advantage list the foldl above produces
(lemma `get_advantages_eq_gaeAdv`). -/
def gaeAdv (gamma lam : ℚ) (values rewards : List ℚ) (start : ℕ) : List ℚ :=
  if _h : start < rewards.length then
    (rewards.getD start 0
        + gamma * (if start < rewards.length - 1 then values.getD (start + 1) 0 else 0)
        - values.getD start 0
        + gamma * lam * (gaeAdv gamma lam values rewards (start + 1)).headD 0)
      :: gaeAdv gamma lam values rewards (start + 1)
  else []
termination_by rewards.length - start
decreasing_by omega

/-- `rewards[j, start:ends[j]][-1] += x` for one row: the Python slice stop is
clamped to the row length; when the slice is nonempty the last element of the
slice, at index `min stop row.length - 1`, is incremented.  (An empty slice
would raise `IndexError` in the source; it cannot arise there because
`stop > start` always, and the theorems carry `start < row.length`.) -/
def addTerminalReward (start stop : ℕ) (x : ℚ) (row : List ℚ) : List ℚ :=
  if start < min stop row.length then
    row.set (min stop row.length - 1) (row.getD (min stop row.length - 1) 0 + x)
  else row

/-- `DeepSpeedPPOTrainer.compute_rewards(prompts, log_probs, ref_log_probs,
reward_score, action_mask)`.  `kl_ctl` and `clip_reward_value` are the trainer
fields (defaults `0.1` and `5*2 = 10`), `prompt_len` is `prompts.shape[1]`.
Per row `j`: `rewards = -kl_ctl * (log_probs - ref_log_probs)`,
`start = prompt_len - 1`, `ends_j = start + action_mask[j, start:].sum() + 1`,
then `rewards[j, start:ends_j][-1] += clamp(reward_score[j], -clip, clip)`. -/
def compute_rewards (kl_ctl clip_reward_value : ℚ) (prompt_len : ℕ)
    (log_probs ref_log_probs : List (List ℚ)) (reward_score : List ℚ)
    (action_mask : List (List ℕ)) : List (List ℚ) :=
  (List.range log_probs.length).map fun j =>
    let kl_row := (log_probs.getD j []).zipWith
      (fun a b => -kl_ctl * (a - b)) (ref_log_probs.getD j [])
    let start := prompt_len - 1
    let ends := start + ((action_mask.getD j []).drop start).sum + 1
    addTerminalReward start ends
      (clamp (reward_score.getD j 0) (-clip_reward_value) clip_reward_value) kl_row

/-- The reward trajectory asserted by the claim for `compute_rewards`: the KL
penalty everywhere, with the clipped terminal reward added at position
`prompt_length - 1 + count_of_real_continuation_tokens` and nowhere else. -/
def claimed_rewards (kl_ctl clip_reward_value : ℚ) (prompt_len : ℕ)
    (log_probs ref_log_probs : List (List ℚ)) (reward_score : List ℚ)
    (action_mask : List (List ℕ)) : List (List ℚ) :=
  (List.range log_probs.length).map fun j =>
    (List.range (log_probs.getD j []).length).map fun t =>
      -kl_ctl * ((log_probs.getD j []).getD t 0 - (ref_log_probs.getD j []).getD t 0)
        + if t = prompt_len - 1 + ((action_mask.getD j []).drop (prompt_len - 1)).sum
          then clamp (reward_score.getD j 0) (-clip_reward_value) clip_reward_value
          else 0

/-- `torch.clamp` on reals. -/
noncomputable def clampR (x lo hi : ℝ) : ℝ := min (max x lo) hi

/-- `DeepSpeedPPOTrainer.actor_loss_fn(logprobs, old_logprobs,
fact_advantages, gen_advantages, mask)`, with `cliprange = self.cliprange`
(default `0.2`).  The two masked means divide by `mask.sum()`; a zero mask sum
makes that a division by zero (NaN in torch), modelled as `none`. -/
noncomputable def actor_loss_fn (cliprange : ℝ)
    (logprobs old_logprobs fact_advantages gen_advantages mask : List ℝ) :
    Option ℝ :=
  let log_ratio := (logprobs.zipWith (fun a b => a - b) old_logprobs).zipWith
    (fun a m => a * m) mask
  let ratio := log_ratio.map Real.exp
  let fact_pg_loss1 := fact_advantages.zipWith (fun a r => -a * r) ratio
  let fact_pg_loss2 := fact_advantages.zipWith
    (fun a r => -a * clampR r (1 - cliprange) (1 + cliprange)) ratio
  let gen_pg_loss1 := gen_advantages.zipWith (fun a r => -a * r) ratio
  let gen_pg_loss2 := gen_advantages.zipWith
    (fun a r => -a * clampR r (1 - cliprange) (1 + cliprange)) ratio
  if mask.sum = 0 then none
  else some
    (((fact_pg_loss1.zipWith max fact_pg_loss2).zipWith (fun x m => x * m) mask).sum
        / mask.sum
      + ((gen_pg_loss1.zipWith max gen_pg_loss2).zipWith (fun x m => x * m) mask).sum
        / mask.sum)

/-- The masked mean `sum(x * mask) / sum(mask)` of the specification. -/
noncomputable def maskedMean (x mask : List ℝ) : ℝ :=
  (x.zipWith (fun a m => a * m) mask).sum / mask.sum

/-- The policy ratio of the specification:
`ratio = exp((new_logprob - old_logprob) * mask)`. -/
noncomputable def spec_ratio (logprobs old_logprobs mask : List ℝ) : List ℝ :=
  ((logprobs.zipWith (fun a b => a - b) old_logprobs).zipWith
    (fun a m => a * m) mask).map Real.exp

/-- The per-head surrogate loss of the specification:
`mean_over_masked(max(-adv * ratio, -adv * clip(ratio, 1-eps, 1+eps)))`. -/
noncomputable def spec_head_loss (cliprange : ℝ) (adv ratio mask : List ℝ) : ℝ :=
  maskedMean
    ((adv.zipWith (fun a r => -a * r) ratio).zipWith max
      (adv.zipWith (fun a r => -a * clampR r (1 - cliprange) (1 + cliprange)) ratio))
    mask

/-- `DeepSpeedPPOTrainer.critic_loss_fn(values, old_values, returns, mask)`,
with `cliprange_value = self.cliprange_value` (default `0.2`).  As in
`actor_loss_fn`, the division by `mask.sum()` with a zero mask sum is `none`. -/
def critic_loss_fn (cliprange_value : ℚ)
    (values old_values returns mask : List ℚ) : Option ℚ :=
  let values_clipped := values.zipWith
    (fun v ov => clamp v (ov - cliprange_value) (ov + cliprange_value)) old_values
  let vf_loss1 := values.zipWith (fun v ret => (v - ret) ^ 2) returns
  let vf_loss2 := values_clipped.zipWith (fun v ret => (v - ret) ^ 2) returns
  if mask.sum = 0 then none
  else some
    (1 / 2 * ((vf_loss1.zipWith max vf_loss2).zipWith (fun x m => x * m) mask).sum
      / mask.sum)

/-- The `skip_step` flags of the three optimizers (actor, factual critic,
generative critic). -/
structure OptFlags where
  actor_skip : Bool
  fact_skip : Bool
  gen_skip : Bool
deriving DecidableEq, Fintype

/-- The `align_overflow` block at the end of `train_rlhf`: given the three
overflow flags read from the optimizers and the current `skip_step` flags,
produce the updated flags; the second component records that
`self.actor_model.step()` is invoked (it is, on every path, after the
`if`/`elif` chain). -/
def align_overflow_resolve
    (actor_overflow fact_critic_overflow gen_critic_overflow : Bool)
    (s : OptFlags) : OptFlags × Bool :=
  if actor_overflow && !fact_critic_overflow && !gen_critic_overflow then
    (⟨s.actor_skip, true, true⟩, true)
  else if !actor_overflow && (fact_critic_overflow || gen_critic_overflow) then
    (⟨true, s.fact_skip, s.gen_skip⟩, true)
  else if actor_overflow && (fact_critic_overflow || gen_critic_overflow) then
    (s, true)
  else (s, true)

/-- The fallback logic at the top of `generate_experience`: `cache` is
`self.last_generated_experience`, `gen_result` the value of
`self._generate_sequence(...)` (`none` when every row was filtered out).
Returns `none` on the assertion failure (`seq is None` and no cache), and
otherwise the pair of the `(prompts, seq)` the experience is built from and
the new cache contents. -/
def generate_experience_fallback {α β : Type} (cache : Option (α × β))
    (prompts : α) (gen_result : Option β) :
    Option ((α × β) × Option (α × β)) :=
  match gen_result with
  | none =>
    match cache with
    | none => none
    | some ps => some (ps, some ps)
  | some s => some ((prompts, s), some (prompts, s))

/-- The two candidate labels passed to the zero-shot classifier. -/
inductive TopicLabel
  | factual
  | generative
deriving DecidableEq

/-- One entry of the classifier output list: the ranked labels and their
scores (the source reads `dic["labels"][0]`, `dic["scores"][0]` and
`dic["scores"][1]`; with two candidate labels the relevant data is the top
two of each list). -/
structure ClassifierOutput where
  label0 : TopicLabel
  label1 : TopicLabel
  score0 : ℚ
  score1 : ℚ
deriving DecidableEq

instance : Inhabited ClassifierOutput :=
  ⟨⟨TopicLabel.factual, TopicLabel.generative, 0, 0⟩⟩

/-- The probability-extraction loop of `train_rlhf`: if the top label is
`"factual question"` then `(fact, gen) = (scores[0], scores[1])`, otherwise
`(fact, gen) = (scores[1], scores[0])`. -/
def fact_gen_probs (o : ClassifierOutput) : ℚ × ℚ :=
  if o.label0 = TopicLabel.factual then (o.score0, o.score1) else (o.score1, o.score0)

/-- The list comprehension of `train_rlhf`:
`weighted_reward_score = [fact_reward_score[j]*fact_prob[j] +
gen_reward_score[j]*gen_prob[j] for j in range(len(fact_prob))]`. -/
def weighted_reward_score (fact_reward_score gen_reward_score : List ℚ)
    (outs : List ClassifierOutput) : List ℚ :=
  (List.range outs.length).map fun j =>
    fact_reward_score.getD j 0 * (fact_gen_probs (outs.getD j default)).1
      + gen_reward_score.getD j 0 * (fact_gen_probs (outs.getD j default)).2

/-- The score the classifier assigned to a given label (specification-side
lookup, used to state that the blend weighs each head by the score of its own
label independently of the ranking). -/
def scoreOf (o : ClassifierOutput) (l : TopicLabel) : ℚ :=
  if o.label0 = l then o.score0 else if o.label1 = l then o.score1 else 0

/-- `valid_ans_len` of `_generate_sequence` for one row:
`(seq[i, prompt_length:] != pad_token_id).sum()`. -/
def valid_ans_len (pad_token_id prompt_length : ℕ) (row : List ℕ) : ℕ :=
  (row.drop prompt_length).countP (fun t => t != pad_token_id)

/-- The post-generation filter of `_generate_sequence`: rows whose answer has
at most one non-padding token are dropped (`if valid_ans_len[i] <= 1:
continue`); if nothing survives the function returns `None`, otherwise the
kept rows in their original order (`torch.cat(out_seq, dim=0)`). -/
def filter_short_answers (pad_token_id prompt_length : ℕ)
    (seq : List (List ℕ)) : Option (List (List ℕ)) :=
  let out_seq := seq.filter fun row =>
    decide (1 < valid_ans_len pad_token_id prompt_length row)
  if out_seq.isEmpty then none else some out_seq

/-- The slice of the `inputs` dictionary of `train_rlhf` that the
value-zeroing loop reads and writes: `prompts.size(-1)`, the attention mask
and the two cached value tensors. -/
structure RLHFInputs where
  prompt_width : ℕ
  attention_mask : List (List ℕ)
  fact_value : List (List ℚ)
  gen_value : List (List ℚ)

/-- `start = prompts.size()[-1] - 1` in `train_rlhf`. -/
def train_start (inp : RLHFInputs) : ℕ := inp.prompt_width - 1

/-- `ends = start + action_mask[:, start:].sum(1) + 1` in `train_rlhf`, with
`action_mask = attention_mask[:, 1:]`. -/
def train_ends (inp : RLHFInputs) (i : ℕ) : ℕ :=
  train_start inp
    + (((inp.attention_mask.getD i []).drop 1).drop (train_start inp)).sum + 1

/-- `row[e:] = 0` on one tensor row. -/
def zero_from (e : ℕ) (row : List ℚ) : List ℚ :=
  row.take e ++ List.replicate (row.length - e) 0

/-- The in-place zeroing loop of `train_rlhf`
(`fact_old_values[i, ends[i]:] = 0; gen_old_values[i, ends[i]:] = 0`, where
`fact_old_values`/`gen_old_values` alias `inputs["fact_value"]` and
`inputs["gen_value"]`): modelled as explicit state passing, the returned
record being the caller-visible `inputs` dictionary after the call. -/
def train_rlhf_zero_values (inp : RLHFInputs) : RLHFInputs :=
  ⟨inp.prompt_width, inp.attention_mask,
    (List.range inp.fact_value.length).map
      (fun i => zero_from (train_ends inp i) (inp.fact_value.getD i [])),
    (List.range inp.gen_value.length).map
      (fun i => zero_from (train_ends inp i) (inp.gen_value.getD i []))⟩

/-- `DeepSpeedPPOTrainer.get_overflow()`: a 2-tuple `(False, False)` under
`bf16`, otherwise the 3-tuple of the three optimizer overflow flags; the
varying arity is modelled as a `List Bool`. -/
def get_overflow (dtype : String)
    (actor_overflow fact_critic_overflow gen_critic_overflow : Bool) :
    List Bool :=
  if dtype = "bf16" then [false, false]
  else [actor_overflow, fact_critic_overflow, gen_critic_overflow]

lemma gaeAdv_of_ge (gamma lam : ℚ) (values rewards : List ℚ) (start : ℕ)
    (h : rewards.length ≤ start) : gaeAdv gamma lam values rewards start = [] := by
  rw [gaeAdv]
  exact dif_neg (by omega)

lemma gaeAdv_of_lt (gamma lam : ℚ) (values rewards : List ℚ) (start : ℕ)
    (h : start < rewards.length) :
    gaeAdv gamma lam values rewards start =
      (rewards.getD start 0
          + gamma * (if start < rewards.length - 1 then values.getD (start + 1) 0 else 0)
          - values.getD start 0
          + gamma * lam * (gaeAdv gamma lam values rewards (start + 1)).headD 0)
        :: gaeAdv gamma lam values rewards (start + 1) := by
  rw [gaeAdv]
  exact dif_pos h

lemma gaeAdv_length_aux (gamma lam : ℚ) (values rewards : List ℚ) :
    ∀ (n start : ℕ), rewards.length - start ≤ n →
      (gaeAdv gamma lam values rewards start).length = rewards.length - start := by
  intro n
  induction n with
  | zero =>
    intro s hs
    rw [gaeAdv_of_ge gamma lam values rewards s (by omega)]
    simp only [List.length_nil]
    omega
  | succ n ih =>
    intro s hs
    by_cases h : s < rewards.length
    · rw [gaeAdv_of_lt gamma lam values rewards s h]
      simp only [List.length_cons, ih (s + 1) (by omega)]
      omega
    · rw [gaeAdv_of_ge gamma lam values rewards s (by omega)]
      simp only [List.length_nil]
      omega

lemma gaeAdv_length (gamma lam : ℚ) (values rewards : List ℚ) (start : ℕ) :
    (gaeAdv gamma lam values rewards start).length = rewards.length - start :=
  gaeAdv_length_aux gamma lam values rewards (rewards.length - start) start le_rfl

lemma list_getD_zero_headD (l : List ℚ) : l.getD 0 0 = l.headD 0 := by
  cases l <;> simp

lemma gaeAdv_getD_aux (gamma lam : ℚ) (values rewards : List ℚ) :
    ∀ (n s t : ℕ), t - s ≤ n → s ≤ t → t < rewards.length →
      (gaeAdv gamma lam values rewards s).getD (t - s) 0 =
        (gaeAdv gamma lam values rewards t).headD 0 := by
  intro n
  induction n with
  | zero =>
    intro s t hn hst _ht
    have hst2 : s = t := by omega
    subst hst2
    rw [Nat.sub_self, list_getD_zero_headD]
  | succ n ih =>
    intro s t hn hst ht
    by_cases hst2 : s = t
    · subst hst2
      rw [Nat.sub_self, list_getD_zero_headD]
    · have hlt : s < t := by omega
      rw [gaeAdv_of_lt gamma lam values rewards s (by omega)]
      have he : t - s = (t - (s + 1)) + 1 := by omega
      rw [he, List.getD_cons_succ]
      exact ih (s + 1) t (by omega) (by omega) ht

lemma gaeAdv_getD (gamma lam : ℚ) (values rewards : List ℚ) (s t : ℕ)
    (hst : s ≤ t) (ht : t < rewards.length) :
    (gaeAdv gamma lam values rewards s).getD (t - s) 0 =
      (gaeAdv gamma lam values rewards t).headD 0 :=
  gaeAdv_getD_aux gamma lam values rewards (t - s) s t le_rfl hst ht

lemma gaeAdv_headD (gamma lam : ℚ) (values rewards : List ℚ) (t : ℕ)
    (ht : t < rewards.length) :
    (gaeAdv gamma lam values rewards t).headD 0 =
      rewards.getD t 0
        + gamma * (if t < rewards.length - 1 then values.getD (t + 1) 0 else 0)
        - values.getD t 0
        + gamma * lam * (gaeAdv gamma lam values rewards (t + 1)).headD 0 := by
  rw [gaeAdv_of_lt gamma lam values rewards t ht, List.headD_cons]

lemma gae_foldl_eq (gamma lam : ℚ) (values rewards : List ℚ) :
    ∀ m, m ≤ rewards.length →
      (List.range m).foldl (gaeStep gamma lam values rewards)
          ((0 : ℚ), ([] : List ℚ)) =
        ((gaeAdv gamma lam values rewards (rewards.length - m)).headD 0,
          gaeAdv gamma lam values rewards (rewards.length - m)) := by
  intro m
  induction m with
  | zero =>
    intro _
    rw [List.range_zero, List.foldl_nil, Nat.sub_zero,
      gaeAdv_of_ge gamma lam values rewards rewards.length le_rfl]
    rfl
  | succ m ih =>
    intro hm
    rw [List.range_succ, List.foldl_append, ih (by omega), List.foldl_cons,
      List.foldl_nil]
    have h1 : rewards.length - 1 - m = rewards.length - (m + 1) := by omega
    have h3 : rewards.length - (m + 1) < rewards.length := by omega
    have h2 : rewards.length - (m + 1) + 1 = rewards.length - m := by omega
    simp only [gaeStep]
    rw [h1, gaeAdv_of_lt gamma lam values rewards _ h3, List.headD_cons, h2]

lemma get_advantages_eq_gaeAdv (gamma lam : ℚ) (values rewards : List ℚ)
    (start : ℕ) :
    (get_advantages_and_returns gamma lam values rewards start).1 =
      gaeAdv gamma lam values rewards start := by
  by_cases h : start ≤ rewards.length
  · have he := gae_foldl_eq gamma lam values rewards (rewards.length - start)
      (by omega)
    simp only [get_advantages_and_returns, he]
    congr 1
    omega
  · have h2 : rewards.length - start = 0 := by omega
    simp only [get_advantages_and_returns, h2, List.range_zero, List.foldl_nil]
    rw [gaeAdv_of_ge gamma lam values rewards start (by omega)]

lemma get_advantages_length (gamma lam : ℚ) (values rewards : List ℚ)
    (start : ℕ) :
    (get_advantages_and_returns gamma lam values rewards start).1.length =
      rewards.length - start := by
  rw [get_advantages_eq_gaeAdv, gaeAdv_length]

lemma get_returns_eq (gamma lam : ℚ) (values rewards : List ℚ) (start : ℕ) :
    (get_advantages_and_returns gamma lam values rewards start).2 =
      (get_advantages_and_returns gamma lam values rewards start).1.zipWith
        (fun a v => a + v) (values.drop start) := by
  rfl

lemma zipWith_getD_add (l1 l2 : List ℚ) (i : ℕ) (h1 : i < l1.length)
    (h2 : i < l2.length) :
    (l1.zipWith (fun a v => a + v) l2).getD i 0 = l1.getD i 0 + l2.getD i 0 := by
  have hz : i < (l1.zipWith (fun a v => a + v) l2).length := by
    rw [List.length_zipWith]
    omega
  rw [List.getD_eq_getElem _ _ hz, List.getD_eq_getElem _ _ h1,
    List.getD_eq_getElem _ _ h2, List.getElem_zipWith]

lemma getD_drop_q (l : List ℚ) (s i : ℕ) :
    (l.drop s).getD i 0 = l.getD (s + i) 0 := by
  rw [List.getD_eq_getElem?_getD, List.getD_eq_getElem?_getD, List.getElem?_drop]

/-- C1: with the trainer defaults `gamma = 1.0` and `lam = 0.95`,
`get_advantages_and_returns(values, rewards, start)` over trajectories of
common length `L` with `0 <= start < L` returns advantage and return
trajectories over the positions `[start, L)` satisfying the backward GAE
recurrence `advantage[t] = delta[t] + gamma * lam * advantage[t+1]`, where
`delta[t] = reward[t] + gamma * value[t+1] - value[t]` with `value[L] := 0`
and `advantage[L] := 0` (the unfolding of `lastgae` initialised to `0` at
`t = L-1`), and `return[t] = advantage[t] + value[t]`; in particular for a
single-step trajectory (`start = L-1`) the advantage is
`reward[start] - value[start]` and the return is `reward[start]`. -/
theorem C1_gae_recurrence (values rewards : List ℚ) (L : ℕ)
    (hv : values.length = L) (hr : rewards.length = L) (start : ℕ)
    (hs : start < L) :
    (get_advantages_and_returns 1 (19/20) values rewards start).1.length
        = L - start ∧
    (get_advantages_and_returns 1 (19/20) values rewards start).2.length
        = L - start ∧
    (∀ t, start ≤ t → t < L →
      (get_advantages_and_returns 1 (19/20) values rewards start).1.getD
          (t - start) 0 =
        rewards.getD t 0
          + 1 * (if t < L - 1 then values.getD (t + 1) 0 else 0)
          - values.getD t 0
          + 1 * (19/20) *
            (if t < L - 1 then
              (get_advantages_and_returns 1 (19/20) values rewards start).1.getD
                (t + 1 - start) 0
            else 0)) ∧
    (∀ t, start ≤ t → t < L →
      (get_advantages_and_returns 1 (19/20) values rewards start).2.getD
          (t - start) 0 =
        (get_advantages_and_returns 1 (19/20) values rewards start).1.getD
          (t - start) 0 + values.getD t 0) ∧
    (start = L - 1 →
      (get_advantages_and_returns 1 (19/20) values rewards start).1 =
        [rewards.getD start 0 - values.getD start 0] ∧
      (get_advantages_and_returns 1 (19/20) values rewards start).2 =
        [rewards.getD start 0]) := by
  have hadv := get_advantages_eq_gaeAdv 1 (19/20) values rewards start
  refine ⟨?_, ?_, ?_, ?_, ?_⟩
  · rw [get_advantages_length, hr]
  · rw [get_returns_eq, List.length_zipWith, get_advantages_length, hr,
      List.length_drop, hv]
    omega
  · intro t h1 h2
    have h3 : t < rewards.length := by omega
    rw [hadv, gaeAdv_getD 1 (19/20) values rewards start t h1 h3,
      gaeAdv_headD 1 (19/20) values rewards t h3, hr]
    by_cases hc : t < L - 1
    · simp only [if_pos hc]
      rw [gaeAdv_getD 1 (19/20) values rewards start (t + 1) (by omega) (by omega)]
    · simp only [if_neg hc]
      rw [gaeAdv_of_ge 1 (19/20) values rewards (t + 1) (by omega), List.headD_nil]
  · intro t h1 h2
    have h1a : t - start <
        (get_advantages_and_returns 1 (19/20) values rewards start).1.length := by
      rw [get_advantages_length, hr]
      omega
    have h2a : t - start < (values.drop start).length := by
      rw [List.length_drop, hv]
      omega
    rw [get_returns_eq, zipWith_getD_add _ _ _ h1a h2a,
      getD_drop_q values start (t - start), show start + (t - start) = t by omega]
  · intro h
    subst h
    have hA : (get_advantages_and_returns 1 (19/20) values rewards (L - 1)).1 =
        [rewards.getD (L - 1) 0 - values.getD (L - 1) 0] := by
      rw [hadv, gaeAdv_of_lt 1 (19/20) values rewards (L - 1) (by omega),
        gaeAdv_of_ge 1 (19/20) values rewards (L - 1 + 1) (by omega),
        List.headD_nil, if_neg (show ¬(L - 1 < rewards.length - 1) by omega)]
      rw [show rewards.getD (L - 1) 0 + 1 * 0 - values.getD (L - 1) 0
          + 1 * (19/20) * 0 = rewards.getD (L - 1) 0 - values.getD (L - 1) 0
        by ring]
    have hdrop : values.drop (L - 1) = [values.getD (L - 1) 0] := by
      have hlt : L - 1 < values.length := by omega
      rw [List.drop_eq_getElem_cons hlt, show L - 1 + 1 = values.length by omega,
        List.drop_length, List.getD_eq_getElem values 0 hlt]
    refine ⟨hA, ?_⟩
    rw [get_returns_eq, hA, hdrop]
    simp only [List.zipWith_cons_cons, List.zipWith_nil_right]
    rw [show rewards.getD (L - 1) 0 - values.getD (L - 1) 0
        + values.getD (L - 1) 0 = rewards.getD (L - 1) 0 by ring]

/-- Witness for C1 at the concrete single-step input `values = [5]`,
`rewards = [7]`, `start = 0`, `L = 1`. -/
theorem C1_gae_recurrence_witness :
    (get_advantages_and_returns 1 (19/20) [(5 : ℚ)] [7] 0).1 = [2] ∧
    (get_advantages_and_returns 1 (19/20) [(5 : ℚ)] [7] 0).2 = [7] := by
  have h := (C1_gae_recurrence [(5 : ℚ)] [7] 1 rfl rfl 0 (by decide)).2.2.2.2 rfl
  refine ⟨?_, h.2⟩
  rw [h.1]
  norm_num

lemma getD_range_map {β : Type} (n : ℕ) (f : ℕ → β) (j : ℕ) (d : β)
    (h : j < n) : ((List.range n).map f).getD j d = f j := by
  rw [List.getD_eq_getElem _ _ (by simpa using h), List.getElem_map,
    List.getElem_range]

lemma addTerminalReward_length (start stop : ℕ) (x : ℚ) (row : List ℚ) :
    (addTerminalReward start stop x row).length = row.length := by
  unfold addTerminalReward
  split
  · rw [List.length_set]
  · rfl

lemma kl_row_getD (kl : ℚ) (lp rlp : List ℚ) (t : ℕ) (h1 : t < lp.length)
    (h2 : t < rlp.length) :
    (lp.zipWith (fun a b => -kl * (a - b)) rlp).getD t 0 =
      -kl * (lp.getD t 0 - rlp.getD t 0) := by
  have hz : t < (lp.zipWith (fun a b => -kl * (a - b)) rlp).length := by
    rw [List.length_zipWith]
    omega
  rw [List.getD_eq_getElem _ _ hz, List.getD_eq_getElem _ _ h1,
    List.getD_eq_getElem _ _ h2, List.getElem_zipWith]

lemma getD_set_q (row : List ℚ) (i : ℕ) (v : ℚ) (t : ℕ) (ht : t < row.length) :
    (row.set i v).getD t 0 = if i = t then v else row.getD t 0 := by
  have ht2 : t < (row.set i v).length := by
    rw [List.length_set]
    exact ht
  rw [List.getD_eq_getElem _ _ ht2, List.getElem_set]
  by_cases h : i = t
  · rw [if_pos h, if_pos h]
  · rw [if_neg h, if_neg h, List.getD_eq_getElem _ _ ht]

/-- C2 counterexample: with `prompt_length = 2`, zero KL divergence on a
length-3 trajectory, terminal reward `1`, and an action mask whose
continuation is entirely real (no trailing padding), `compute_rewards` adds
the terminal reward at trajectory position `2 = L - 1` (the Python slice stop
`ends = 4` is clamped to the row length `3`), while the claimed injection
position `prompt_length - 1 + count = 3` lies outside the trajectory, so the
trajectory the claim describes is the pure KL penalty, i.e. all zero. -/
theorem C2_compute_rewards_cex :
    compute_rewards (1 / 10) 10 2 [[0, 0, 0]] [[0, 0, 0]] [1] [[1, 1, 1]] =
        [[0, 0, 1]] ∧
    claimed_rewards (1 / 10) 10 2 [[0, 0, 0]] [[0, 0, 0]] [1] [[1, 1, 1]] =
        [[0, 0, 0]] ∧
    compute_rewards (1 / 10) 10 2 [[0, 0, 0]] [[0, 0, 0]] [1] [[1, 1, 1]] ≠
      claimed_rewards (1 / 10) 10 2 [[0, 0, 0]] [[0, 0, 0]] [1] [[1, 1, 1]] := by
  have h1 : compute_rewards (1 / 10) 10 2 [[0, 0, 0]] [[0, 0, 0]] [1]
      [[1, 1, 1]] = [[0, 0, 1]] := by
    norm_num [compute_rewards, addTerminalReward, clamp, List.range_succ,
      List.replicate_succ, List.set_cons_succ, List.set_cons_zero]
  have h2 : claimed_rewards (1 / 10) 10 2 [[0, 0, 0]] [[0, 0, 0]] [1]
      [[1, 1, 1]] = [[0, 0, 0]] := by
    norm_num [claimed_rewards, clamp, List.range_succ]
  refine ⟨h1, h2, ?_⟩
  rw [h1, h2]
  intro h
  simp at h

/-- C2 (amended): `compute_rewards` returns the per-token KL penalty
`-kl_coefficient * (log_probs - ref_log_probs)` everywhere, with the terminal
reward (clipped to `[-clip_reward_value, +clip_reward_value]`) additionally
added at exactly one position per example, namely
`min(prompt_length - 1 + count_of_real_continuation_tokens, L - 1)` where `L`
is the trajectory length: this is the claimed position whenever the
continuation has at least one padding position, but the final position `L - 1`
when the continuation is entirely real. -/
theorem C2_compute_rewards_amended (kl_ctl clip_reward_value : ℚ)
    (prompt_len : ℕ) (log_probs ref_log_probs : List (List ℚ))
    (reward_score : List ℚ) (action_mask : List (List ℕ)) (j t : ℕ)
    (hj : j < log_probs.length)
    (hlen : (ref_log_probs.getD j []).length = (log_probs.getD j []).length)
    (hstart : prompt_len - 1 < (log_probs.getD j []).length)
    (ht : t < (log_probs.getD j []).length) :
    (compute_rewards kl_ctl clip_reward_value prompt_len log_probs
        ref_log_probs reward_score action_mask).length = log_probs.length ∧
    ((compute_rewards kl_ctl clip_reward_value prompt_len log_probs
        ref_log_probs reward_score action_mask).getD j []).length =
      (log_probs.getD j []).length ∧
    ((compute_rewards kl_ctl clip_reward_value prompt_len log_probs
        ref_log_probs reward_score action_mask).getD j []).getD t 0 =
      -kl_ctl * ((log_probs.getD j []).getD t 0
          - (ref_log_probs.getD j []).getD t 0)
        + (if t = min
              (prompt_len - 1
                + ((action_mask.getD j []).drop (prompt_len - 1)).sum)
              ((log_probs.getD j []).length - 1)
           then clamp (reward_score.getD j 0) (-clip_reward_value)
             clip_reward_value
           else 0) := by
  have hrow : (compute_rewards kl_ctl clip_reward_value prompt_len log_probs
      ref_log_probs reward_score action_mask).getD j [] =
      addTerminalReward (prompt_len - 1)
        (prompt_len - 1 + ((action_mask.getD j []).drop (prompt_len - 1)).sum
          + 1)
        (clamp (reward_score.getD j 0) (-clip_reward_value) clip_reward_value)
        ((log_probs.getD j []).zipWith (fun a b => -kl_ctl * (a - b))
          (ref_log_probs.getD j [])) := by
    unfold compute_rewards
    rw [getD_range_map _ _ _ _ hj]
  have hkl : ((log_probs.getD j []).zipWith (fun a b => -kl_ctl * (a - b))
      (ref_log_probs.getD j [])).length = (log_probs.getD j []).length := by
    rw [List.length_zipWith, hlen, min_self]
  refine ⟨?_, ?_, ?_⟩
  · unfold compute_rewards
    rw [List.length_map, List.length_range]
  · rw [hrow, addTerminalReward_length, hkl]
  · rw [hrow]
    unfold addTerminalReward
    have hcond : prompt_len - 1 < min
        (prompt_len - 1 + ((action_mask.getD j []).drop (prompt_len - 1)).sum
          + 1)
        ((log_probs.getD j []).zipWith (fun a b => -kl_ctl * (a - b))
          (ref_log_probs.getD j [])).length := by
      rw [hkl]
      omega
    rw [if_pos hcond]
    rw [getD_set_q _ _ _ t (by rw [hkl]; exact ht)]
    have hpos : min
        (prompt_len - 1 + ((action_mask.getD j []).drop (prompt_len - 1)).sum
          + 1)
        ((log_probs.getD j []).zipWith (fun a b => -kl_ctl * (a - b))
          (ref_log_probs.getD j [])).length - 1 =
        min (prompt_len - 1
            + ((action_mask.getD j []).drop (prompt_len - 1)).sum)
          ((log_probs.getD j []).length - 1) := by
      rw [hkl]
      omega
    rw [hpos]
    by_cases hct : t = min
        (prompt_len - 1 + ((action_mask.getD j []).drop (prompt_len - 1)).sum)
        ((log_probs.getD j []).length - 1)
    · rw [if_pos hct.symm, if_pos hct, ← hct,
        kl_row_getD kl_ctl _ _ t ht (by rw [hlen]; exact ht)]
    · rw [if_neg (fun h => hct h.symm), if_neg hct,
        kl_row_getD kl_ctl _ _ t ht (by rw [hlen]; exact ht), add_zero]

/-- Witness for the amended C2 at a concrete input with trailing padding in
the continuation: `prompt_length = 2`, trajectory length 4, terminal reward
`3`, one real continuation token, so the injection position is
`min(1 + 1, 3) = 2` and the value there is `-0.1 * (3 - 1) + 3 = 14/5`. -/
theorem C2_compute_rewards_amended_witness :
    ((compute_rewards (1 / 10) 10 2 [[1, 2, 3, 4]] [[1, 1, 1, 1]] [3]
        [[1, 1, 0, 0]]).getD 0 []).getD 2 0 = 14 / 5 := by
  have h := (C2_compute_rewards_amended (1 / 10) 10 2 [[1, 2, 3, 4]]
    [[1, 1, 1, 1]] [3] [[1, 1, 0, 0]] 0 2 (by decide) (by decide) (by decide)
    (by decide)).2.2
  rw [h]
  norm_num [clamp]

/-- C4: the `align_overflow` resolution in `train_rlhf` maps each of the four
overflow combinations exactly as documented: actor overflow with no critic
overflow sets `skip_step` on both critic optimizers only; no actor overflow
with at least one critic overflow sets `skip_step` on the actor optimizer
only; actor overflow together with a critic overflow changes no flag; no
overflow changes no flag; and in all four cases `actor_model.step()` is
invoked afterwards (the second component is `true`). -/
theorem C4_align_overflow_table (a f g : Bool) (s : OptFlags) :
    ((a = true ∧ f = false ∧ g = false) →
      align_overflow_resolve a f g s = (⟨s.actor_skip, true, true⟩, true)) ∧
    ((a = false ∧ (f = true ∨ g = true)) →
      align_overflow_resolve a f g s = (⟨true, s.fact_skip, s.gen_skip⟩, true)) ∧
    ((a = true ∧ (f = true ∨ g = true)) →
      align_overflow_resolve a f g s = (s, true)) ∧
    ((a = false ∧ f = false ∧ g = false) →
      align_overflow_resolve a f g s = (s, true)) := by
  rcases s with ⟨sa, sf, sg⟩
  cases a <;> cases f <;> cases g <;> simp [align_overflow_resolve]

/-- Witness for C4 at the combination (actor overflow, no critic overflow)
starting from all-clear skip flags. -/
theorem C4_align_overflow_table_witness :
    align_overflow_resolve true false false ⟨false, false, false⟩ =
      (⟨false, true, true⟩, true) :=
  (C4_align_overflow_table true false false ⟨false, false, false⟩).1
    ⟨rfl, rfl, rfl⟩

/-- C5: `generate_experience` fails (assertion error, modelled as `none`) iff
generation returned an empty batch and no cached rollout exists; with an
empty batch and a cache present the experience is built from the cached
prompts and sequence (and the cache is unchanged); with a non-empty batch the
cache is overwritten with the new prompts and sequence and the experience is
built from them. -/
theorem C5_generate_experience_fallback {α β : Type} (cache : Option (α × β))
    (prompts : α) (gen_result : Option β) :
    (generate_experience_fallback cache prompts gen_result = none ↔
      gen_result = none ∧ cache = none) ∧
    (∀ p s, gen_result = none → cache = some (p, s) →
      generate_experience_fallback cache prompts gen_result =
        some ((p, s), some (p, s))) ∧
    (∀ s, gen_result = some s →
      generate_experience_fallback cache prompts gen_result =
        some ((prompts, s), some (prompts, s))) := by
  refine ⟨?_, ?_, ?_⟩
  · cases gen_result <;> rcases cache with _ | ⟨p, s⟩ <;>
      simp [generate_experience_fallback]
  · intro p s h1 h2
    subst h1
    subst h2
    rfl
  · intro s h1
    subst h1
    rfl

/-- Witness for C5 at concrete inputs covering the three cases. -/
theorem C5_generate_experience_fallback_witness :
    generate_experience_fallback (none : Option (ℕ × ℕ)) 7 none = none ∧
    generate_experience_fallback (some ((1 : ℕ), (2 : ℕ))) 7 (none : Option ℕ) =
      some ((1, 2), some (1, 2)) ∧
    generate_experience_fallback (some ((1 : ℕ), (2 : ℕ))) 7 (some 9) =
      some ((7, 9), some (7, 9)) :=
  ⟨(C5_generate_experience_fallback none 7 none).1.mpr ⟨rfl, rfl⟩,
   (C5_generate_experience_fallback (some (1, 2)) 7 none).2.1 1 2 rfl rfl,
   (C5_generate_experience_fallback (some (1, 2)) 7 (some 9)).2.2 9 rfl⟩

/-- C7: the blended terminal reward of example `j` is
`fact_reward * p_factual + gen_reward * p_generative`, where `p_factual` and
`p_generative` are the scores the classifier assigned to the labels
`factual question` and `generative question` respectively, regardless of
which label was ranked first; for score pairs `(1,0)`, `(0,1)` and
`(1/2,1/2)` the blend is the factual score, the generative score and the
average respectively. -/
theorem C7_reward_blend (fact_reward_score gen_reward_score : List ℚ)
    (outs : List ClassifierOutput) (j : ℕ) (hj : j < outs.length)
    (hperm : (outs.getD j default).label0 ≠ (outs.getD j default).label1) :
    (weighted_reward_score fact_reward_score gen_reward_score outs).getD j 0 =
      fact_reward_score.getD j 0
          * scoreOf (outs.getD j default) TopicLabel.factual
        + gen_reward_score.getD j 0
          * scoreOf (outs.getD j default) TopicLabel.generative ∧
    (scoreOf (outs.getD j default) TopicLabel.factual = 1 ∧
        scoreOf (outs.getD j default) TopicLabel.generative = 0 →
      (weighted_reward_score fact_reward_score gen_reward_score outs).getD j 0 =
        fact_reward_score.getD j 0) ∧
    (scoreOf (outs.getD j default) TopicLabel.factual = 0 ∧
        scoreOf (outs.getD j default) TopicLabel.generative = 1 →
      (weighted_reward_score fact_reward_score gen_reward_score outs).getD j 0 =
        gen_reward_score.getD j 0) ∧
    (scoreOf (outs.getD j default) TopicLabel.factual = 1 / 2 ∧
        scoreOf (outs.getD j default) TopicLabel.generative = 1 / 2 →
      (weighted_reward_score fact_reward_score gen_reward_score outs).getD j 0 =
        (fact_reward_score.getD j 0 + gen_reward_score.getD j 0) / 2) := by
  have hmain : ∀ o : ClassifierOutput, o.label0 ≠ o.label1 →
      fact_reward_score.getD j 0 * (fact_gen_probs o).1
          + gen_reward_score.getD j 0 * (fact_gen_probs o).2 =
        fact_reward_score.getD j 0 * scoreOf o TopicLabel.factual
          + gen_reward_score.getD j 0 * scoreOf o TopicLabel.generative := by
    rintro ⟨l0, l1, s0, s1⟩ hp
    cases l0 <;> cases l1 <;> simp_all [fact_gen_probs, scoreOf]
  have hget : (weighted_reward_score fact_reward_score gen_reward_score
      outs).getD j 0 =
      fact_reward_score.getD j 0
          * scoreOf (outs.getD j default) TopicLabel.factual
        + gen_reward_score.getD j 0
          * scoreOf (outs.getD j default) TopicLabel.generative := by
    unfold weighted_reward_score
    rw [getD_range_map _ _ _ _ hj]
    exact hmain _ hperm
  refine ⟨hget, ?_, ?_, ?_⟩
  · rintro ⟨h1, h2⟩
    rw [hget, h1, h2]
    ring
  · rintro ⟨h1, h2⟩
    rw [hget, h1, h2]
    ring
  · rintro ⟨h1, h2⟩
    rw [hget, h1, h2]
    ring

/-- Witness for C7 with the generative label ranked first: the extraction
still pairs each reward with the score of its own label. -/
theorem C7_reward_blend_witness :
    (weighted_reward_score [2] [4]
        [⟨TopicLabel.generative, TopicLabel.factual, 3 / 10, 7 / 10⟩]).getD 0 0 =
      2 * (7 / 10) + 4 * (3 / 10) := by
  have h := (C7_reward_blend [2] [4]
    [⟨TopicLabel.generative, TopicLabel.factual, 3 / 10, 7 / 10⟩] 0
    (by decide) (by decide)).1
  exact h

/-- C8: `_generate_sequence` keeps exactly the rows whose continuation has at
least two non-padding tokens, in their original relative order (the kept
batch is a sublist of the input batch); a `some` result is nonempty, every
kept row has at least 2 real continuation tokens, and the output batch is no
larger than the input; the result is `None` exactly when every row has at
most one real continuation token. -/
theorem C8_filter_short_answers (pad_token_id prompt_length : ℕ)
    (seq : List (List ℕ)) :
    (filter_short_answers pad_token_id prompt_length seq = none ↔
      ∀ row ∈ seq, valid_ans_len pad_token_id prompt_length row ≤ 1) ∧
    (∀ out, filter_short_answers pad_token_id prompt_length seq = some out →
      out.Sublist seq ∧
      out.length ≤ seq.length ∧
      out ≠ [] ∧
      (∀ row ∈ out, 2 ≤ valid_ans_len pad_token_id prompt_length row) ∧
      (∀ row ∈ seq, 1 < valid_ans_len pad_token_id prompt_length row →
        row ∈ out)) := by
  constructor
  · simp only [filter_short_answers, List.isEmpty_iff]
    constructor
    · intro h
      split at h
      · next he =>
        intro row hr
        rw [List.filter_eq_nil_iff] at he
        have := he row hr
        simp only [decide_eq_true_eq] at this
        omega
      · exact absurd h (by simp)
    · intro h
      rw [if_pos]
      rw [List.filter_eq_nil_iff]
      intro row hr
      have := h row hr
      simp only [decide_eq_true_eq]
      omega
  · intro out h
    simp only [filter_short_answers, List.isEmpty_iff] at h
    split at h
    · exact absurd h (by simp)
    · next he =>
      have hout : seq.filter
          (fun row => decide (1 < valid_ans_len pad_token_id prompt_length row))
          = out := by
        exact Option.some.inj h
      refine ⟨?_, ?_, ?_, ?_, ?_⟩
      · rw [← hout]
        exact List.filter_sublist seq
      · rw [← hout]
        exact List.length_filter_le _ seq
      · rw [← hout]
        exact he
      · intro row hr
        rw [← hout] at hr
        have := List.of_mem_filter hr
        simp only [decide_eq_true_eq] at this
        omega
      · intro row hr hv
        rw [← hout]
        exact List.mem_filter.mpr ⟨hr, by simpa using hv⟩

/-- Witness for C8: with `pad = 0`, `prompt_length = 1`, a row with two real
continuation tokens survives and a row with zero real continuation tokens is
dropped. -/
theorem C8_filter_short_answers_witness :
    filter_short_answers 0 1 [[1, 2, 3], [1, 0, 0]] = some [[1, 2, 3]] ∧
    ([[1, 2, 3]] : List (List ℕ)).Sublist [[1, 2, 3], [1, 0, 0]] := by
  have hsome : filter_short_answers 0 1 [[1, 2, 3], [1, 0, 0]] =
      some [[1, 2, 3]] := by decide
  exact ⟨hsome,
    ((C8_filter_short_answers 0 1 [[1, 2, 3], [1, 0, 0]]).2 [[1, 2, 3]]
      hsome).1⟩

/-- C10: `get_overflow` returns the 2-tuple `(False, False)` when
`args.dtype == "bf16"` and the 3-tuple of the three optimizer overflow flags
otherwise, so the arity of the result depends on the precision mode. -/
theorem C10_get_overflow_arity (dtype : String) (a f g : Bool) :
    (dtype = "bf16" →
      get_overflow dtype a f g = [false, false] ∧
      (get_overflow dtype a f g).length = 2) ∧
    (dtype ≠ "bf16" →
      get_overflow dtype a f g = [a, f, g] ∧
      (get_overflow dtype a f g).length = 3) := by
  constructor
  · intro h
    unfold get_overflow
    rw [if_pos h]
    exact ⟨rfl, rfl⟩
  · intro h
    unfold get_overflow
    rw [if_neg h]
    exact ⟨rfl, rfl⟩

/-- Witness for C10 under both precision modes. -/
theorem C10_get_overflow_arity_witness :
    get_overflow "bf16" true true true = [false, false] ∧
    get_overflow "fp16" true false true = [true, false, true] :=
  ⟨((C10_get_overflow_arity "bf16" true true true).1 rfl).1,
   ((C10_get_overflow_arity "fp16" true false true).2 (by decide)).1⟩

lemma zero_from_length (e : ℕ) (row : List ℚ) :
    (zero_from e row).length = row.length := by
  unfold zero_from
  rw [List.length_append, List.length_take, List.length_replicate]
  omega

lemma zero_from_getD (e : ℕ) (row : List ℚ) (t : ℕ) (ht : t < row.length) :
    (zero_from e row).getD t 0 = if t < e then row.getD t 0 else 0 := by
  unfold zero_from
  by_cases h : t < e
  · rw [if_pos h, List.getD_eq_getElem?_getD, List.getElem?_append_left
      (by rw [List.length_take]; omega), List.getElem?_take_of_lt h,
      ← List.getD_eq_getElem?_getD]
  · rw [if_neg h, List.getD_eq_getElem?_getD, List.getElem?_append_right
      (by rw [List.length_take]; omega), List.length_take,
      List.getElem?_replicate, if_pos (by omega)]
    rfl

/-- C9: the value-zeroing loop of `train_rlhf` mutates the tensors of the
caller-supplied `inputs` dictionary in place (`fact_old_values` and
`gen_old_values` alias `inputs["fact_value"]` and `inputs["gen_value"]`):
after the call, every position from `ends[i]` onward in example `i` of both
value tensors is `0`, positions before `ends[i]` are unchanged, and the other
fields of the record are untouched. -/
theorem C9_train_rlhf_value_mutation (inp : RLHFInputs) (i t : ℕ)
    (hif : i < inp.fact_value.length) (hig : i < inp.gen_value.length)
    (htf : t < (inp.fact_value.getD i []).length)
    (htg : t < (inp.gen_value.getD i []).length) :
    (train_rlhf_zero_values inp).prompt_width = inp.prompt_width ∧
    (train_rlhf_zero_values inp).attention_mask = inp.attention_mask ∧
    (train_rlhf_zero_values inp).fact_value.length = inp.fact_value.length ∧
    (train_rlhf_zero_values inp).gen_value.length = inp.gen_value.length ∧
    ((train_rlhf_zero_values inp).fact_value.getD i []).getD t 0 =
      (if t < train_ends inp i then (inp.fact_value.getD i []).getD t 0
       else 0) ∧
    ((train_rlhf_zero_values inp).gen_value.getD i []).getD t 0 =
      (if t < train_ends inp i then (inp.gen_value.getD i []).getD t 0
       else 0) := by
  refine ⟨rfl, rfl, ?_, ?_, ?_, ?_⟩
  · simp only [train_rlhf_zero_values]
    rw [List.length_map, List.length_range]
  · simp only [train_rlhf_zero_values]
    rw [List.length_map, List.length_range]
  · simp only [train_rlhf_zero_values]
    rw [getD_range_map _ _ _ _ hif, zero_from_getD _ _ _ htf]
  · simp only [train_rlhf_zero_values]
    rw [getD_range_map _ _ _ _ hig, zero_from_getD _ _ _ htg]

/-- Witness for C9 at a concrete record: `prompt_width = 2`, one example of
trajectory length 3 with no real continuation token, so `ends[0] = 2` and
position 2 of both cached value tensors is zeroed by the call. -/
theorem C9_train_rlhf_value_mutation_witness :
    ((train_rlhf_zero_values
        ⟨2, [[1, 1, 0, 0]], [[5, 6, 7]], [[8, 9, 10]]⟩).fact_value.getD 0
      []).getD 2 0 = 0 ∧
    ((train_rlhf_zero_values
        ⟨2, [[1, 1, 0, 0]], [[5, 6, 7]], [[8, 9, 10]]⟩).gen_value.getD 0
      []).getD 2 0 = 0 := by
  have h := (C9_train_rlhf_value_mutation
    ⟨2, [[1, 1, 0, 0]], [[5, 6, 7]], [[8, 9, 10]]⟩ 0 2 (by decide) (by decide)
    (by decide) (by decide)).2.2.2.2
  constructor
  · rw [h.1, if_neg (by decide)]
  · rw [h.2, if_neg (by decide)]

lemma zipWith_sub_self_r (l : List ℝ) :
    l.zipWith (fun a b => a - b) l = l.map (fun _ => (0 : ℝ)) := by
  induction l with
  | nil => rfl
  | cons a l ih => simp [ih]

lemma map_zero_zipWith_mul (l m : List ℝ) :
    (l.map (fun _ => (0 : ℝ))).zipWith (fun a m => a * m) m =
      List.replicate (min l.length m.length) 0 := by
  induction l generalizing m with
  | nil => simp
  | cons a l ih =>
    cases m with
    | nil => simp
    | cons b m =>
      simp only [List.map_cons, List.zipWith_cons_cons, zero_mul,
        List.length_cons, Nat.succ_min_succ, List.replicate_succ, ih]

lemma zipWith_replicate_right (f : ℝ → ℝ → ℝ) (c : ℝ) :
    ∀ (l : List ℝ) (n : ℕ),
      l.zipWith f (List.replicate n c) = (l.take n).map (fun a => f a c) := by
  intro l
  induction l with
  | nil => intro n; simp
  | cons a l ih =>
    intro n
    cases n with
    | zero => simp
    | succ n => simp [List.replicate_succ, ih]

lemma zipWith_max_map_same (f g : ℝ → ℝ) (l : List ℝ) :
    (l.map f).zipWith max (l.map g) = l.map (fun a => max (f a) (g a)) := by
  induction l with
  | nil => rfl
  | cons a l ih => simp [ih]

lemma clampR_one : clampR 1 (1 - 1 / 5) (1 + 1 / 5) = 1 := by
  unfold clampR
  rw [max_eq_left (by norm_num), min_eq_left (by norm_num)]

/-- C3: `actor_loss_fn` returns `loss_fact + loss_gen` where each head loss is
the masked mean `sum(max(-adv * ratio, -adv * clip(ratio, 1-0.2, 1+0.2)) *
mask) / sum(mask)` with `ratio = exp((new_logprob - old_logprob) * mask)`
(first conjunct, against the specification-side definitions); and when the
new log-probs equal the old ones everywhere (so `ratio = 1`), the loss
reduces to the masked mean of `-advantage` summed over both heads (second
conjunct). -/
theorem C3_actor_loss (cliprange : ℝ)
    (logprobs old_logprobs fact_advantages gen_advantages mask : List ℝ)
    (hsum : mask.sum ≠ 0) :
    actor_loss_fn cliprange logprobs old_logprobs fact_advantages
        gen_advantages mask =
      some (spec_head_loss cliprange fact_advantages
          (spec_ratio logprobs old_logprobs mask) mask
        + spec_head_loss cliprange gen_advantages
          (spec_ratio logprobs old_logprobs mask) mask) ∧
    (old_logprobs = logprobs → cliprange = 1 / 5 →
      mask.length = logprobs.length →
      fact_advantages.length = logprobs.length →
      gen_advantages.length = logprobs.length →
      actor_loss_fn cliprange logprobs old_logprobs fact_advantages
          gen_advantages mask =
        some (maskedMean (fact_advantages.map fun a => -a) mask
          + maskedMean (gen_advantages.map fun a => -a) mask)) := by
  constructor
  · simp only [actor_loss_fn, spec_head_loss, maskedMean, spec_ratio]
    rw [if_neg hsum]
  · intro holp hclip hm hfa hga
    subst holp
    subst hclip
    simp only [actor_loss_fn]
    rw [if_neg hsum]
    have hratio : ((old_logprobs.zipWith (fun a b => a - b)
        old_logprobs).zipWith (fun a m => a * m) mask).map Real.exp =
        List.replicate old_logprobs.length 1 := by
      rw [zipWith_sub_self_r, map_zero_zipWith_mul, hm, min_self,
        List.map_replicate, Real.exp_zero]
    rw [hratio]
    simp only [zipWith_replicate_right]
    rw [List.take_of_length_le (le_of_eq hfa),
      List.take_of_length_le (le_of_eq hga)]
    simp only [clampR_one, zipWith_max_map_same, max_self, mul_one,
      maskedMean]

/-- Witness for C3 at `logprobs = old_logprobs = [0]`, advantages `[2]` and
`[3]`, mask `[1]`. -/
theorem C3_actor_loss_witness :
    actor_loss_fn (1 / 5) [0] [0] [2] [3] [1] =
      some (maskedMean ([2].map fun a => -a) [1]
        + maskedMean ([3].map fun a => -a) [1]) :=
  (C3_actor_loss (1 / 5) [0] [0] [2] [3] [1] (by norm_num)).2 rfl rfl rfl rfl
    rfl

/-- C6 counterexample: with an all-zero (degenerate all-padding) mask slice,
neither `actor_loss_fn` nor `critic_loss_fn` guards the masked-mean division:
the divisor `mask.sum()` is `0` and the division by zero occurs (the `none` /
NaN outcome), refuting the claim that an explicit guard prevents it. -/
theorem C6_no_guard_cex :
    actor_loss_fn (1 / 5) [0] [0] [2] [3] [0] = none ∧
    critic_loss_fn (1 / 5) [1] [1] [1] [0] = none := by
  constructor
  · simp [actor_loss_fn]
  · simp [critic_loss_fn]

/-- C6 (amended): no zero-division guard exists: for every input whose mask
sums to zero, the masked-mean division `sum(x*mask)/sum(mask)` in
`actor_loss_fn` and in `critic_loss_fn` is reached with divisor
`mask.sum() = 0`, and the division by zero occurs (NaN, modelled `none`). -/
theorem C6_no_division_guard (cliprange : ℝ)
    (logprobs old_logprobs fact_advantages gen_advantages maskR : List ℝ)
    (cliprange_value : ℚ) (values old_values returns maskQ : List ℚ)
    (hR : maskR.sum = 0) (hQ : maskQ.sum = 0) :
    actor_loss_fn cliprange logprobs old_logprobs fact_advantages
        gen_advantages maskR = none ∧
    critic_loss_fn cliprange_value values old_values returns maskQ = none := by
  constructor
  · simp only [actor_loss_fn]
    rw [if_pos hR]
  · simp only [critic_loss_fn]
    rw [if_pos hQ]

/-- Witness for the amended C6 at concrete all-zero masks. -/
theorem C6_no_division_guard_witness :
    actor_loss_fn (1 / 5) [1] [1] [1] [1] [0] = none ∧
    critic_loss_fn (1 / 5) [2] [2] [2] [0] = none :=
  C6_no_division_guard (1 / 5) [1] [1] [1] [1] [0] (1 / 5) [2] [2] [2] [0]
    (by simp) (by simp)

end PPO
